import Mathlib

/-!
Shallow embedding of the `runtime` repository: a cross-environment
process-abstraction facade with a capability interface (`args`, `stdout`,
`stderr`, `exit`, `signal`), an environment selector (`getRuntime`), and two
backing implementations per build (Deno-family / Node-family).

The repository ships two builds of the facade:
* the full build (`src/mod.ts` with its Deno implementation, and the Node
  implementation in `src/unnamed/part_002`): six-name signal vocabulary,
  signal registration wrapped in a catch-all guard;
* the restricted build (`src/unnamed/part_001` interface + Deno
  implementation, `src/unnamed/part_000` Node implementation): two-name
  signal vocabulary, signal registration unguarded.

Host primitives (argument vectors, stream writers, signal registries, process
exit) are external collaborators; they are modelled explicitly as functions on
a `World` record so that the component's delegation code can be stated and
proved against them.
-/

/-- The six-name signal vocabulary of the full build, from the union type in
the `signal` method of `src/mod.ts` (`"SIGINT" | "SIGTERM" | "SIGHUP" |
"SIGUSR1" | "SIGUSR2" | "SIGINFO"`). -/
inductive FullSignal where
  | SIGINT
  | SIGTERM
  | SIGHUP
  | SIGUSR1
  | SIGUSR2
  | SIGINFO
deriving DecidableEq, Repr

/-- The string a `FullSignal` vocabulary member denotes. -/
def FullSignal.name : FullSignal → String
  | .SIGINT => "SIGINT"
  | .SIGTERM => "SIGTERM"
  | .SIGHUP => "SIGHUP"
  | .SIGUSR1 => "SIGUSR1"
  | .SIGUSR2 => "SIGUSR2"
  | .SIGINFO => "SIGINFO"

/-- The two-name signal vocabulary of the restricted build, from the union
type `"SIGTERM" | "SIGINFO"` in `src/unnamed/part_001` and
`src/unnamed/part_000`. -/
inductive RestrictedSignal where
  | SIGTERM
  | SIGINFO
deriving DecidableEq, Repr

/-- The string a `RestrictedSignal` vocabulary member denotes. -/
def RestrictedSignal.name : RestrictedSignal → String
  | .SIGTERM => "SIGTERM"
  | .SIGINFO => "SIGINFO"

/-- UTF-8 encoding of one Unicode scalar value, by code-point range, exactly
as the host's `TextEncoder().encode` (and Node's default utf8 stream
encoding) produces it.  Arithmetic form: for a code point `v`, the
continuation payload is written base-64 (`v / 0x40`, `v % 0x40`, ...), which
yields the same byte values as the usual shift-and-mask presentation. -/
def utf8EncodeChar (c : Char) : List Nat :=
  let v := c.toNat
  if v < 0x80 then
    [v]
  else if v < 0x800 then
    [0xC0 + v / 0x40, 0x80 + v % 0x40]
  else if v < 0x10000 then
    [0xE0 + v / 0x1000, 0x80 + (v / 0x40) % 0x40, 0x80 + v % 0x40]
  else
    [0xF0 + v / 0x40000, 0x80 + (v / 0x1000) % 0x40, 0x80 + (v / 0x40) % 0x40,
      0x80 + v % 0x40]

/-- UTF-8 encoding of a character sequence: concatenation of the per-character
encodings. -/
def utf8EncodeChars : List Char → List Nat
  | [] => []
  | c :: cs => utf8EncodeChar c ++ utf8EncodeChars cs

/-- The byte sequence `new TextEncoder().encode(s)` (equivalently, the bytes
Node's `process.stdout.write(s)` transmits under its default utf8 encoding):
the UTF-8 encoding of the string's characters. -/
def textEncoderEncode (s : String) : List Nat :=
  utf8EncodeChars s.data

/-- Decode one UTF-8-encoded code point from the front of a byte list,
returning the code point and the remaining bytes.  The first byte selects the
sequence length; continuation payloads are reassembled base-64.  Used to show
the encoding is lossless. -/
def utf8DecodeOne : List Nat → Option (Nat × List Nat)
  | [] => none
  | b :: bs =>
    if b < 0x80 then
      some (b, bs)
    else if b < 0xC0 then
      none
    else if b < 0xE0 then
      match bs with
      | b1 :: rest => some ((b - 0xC0) * 0x40 + (b1 - 0x80), rest)
      | [] => none
    else if b < 0xF0 then
      match bs with
      | b1 :: b2 :: rest =>
        some ((b - 0xE0) * 0x1000 + (b1 - 0x80) * 0x40 + (b2 - 0x80), rest)
      | _ => none
    else
      match bs with
      | b1 :: b2 :: b3 :: rest =>
        some ((b - 0xF0) * 0x40000 + (b1 - 0x80) * 0x1000 + (b2 - 0x80) * 0x40
          + (b3 - 0x80), rest)
      | _ => none

/-- Decode a whole UTF-8 byte list into code points, with an explicit fuel
argument bounding the number of decoded characters. -/
def utf8DecodeFuel : Nat → List Nat → Option (List Nat)
  | _, [] => some []
  | 0, _ :: _ => none
  | fuel + 1, b :: bs =>
    match utf8DecodeOne (b :: bs) with
    | none => none
    | some (v, rest) => (utf8DecodeFuel fuel rest).map (fun vs => v :: vs)

/-- Decode a whole UTF-8 byte list into code points (each decoded character
consumes at least one byte, so the list's length is enough fuel). -/
def utf8Decode (l : List Nat) : Option (List Nat) :=
  utf8DecodeFuel l.length l

theorem utf8EncodeChar_ne_nil (c : Char) : utf8EncodeChar c ≠ [] := by
  unfold utf8EncodeChar
  by_cases h1 : c.toNat < 0x80 <;> by_cases h2 : c.toNat < 0x800 <;>
    by_cases h3 : c.toNat < 0x10000 <;> simp [h1, h2, h3]

theorem utf8DecodeOne_encodeChar (c : Char) (rest : List Nat) :
    utf8DecodeOne (utf8EncodeChar c ++ rest) = some (c.toNat, rest) := by
  unfold utf8EncodeChar
  by_cases h1 : c.toNat < 0x80
  · rw [if_pos h1]
    simp only [List.cons_append, List.nil_append, utf8DecodeOne]
    rw [if_pos h1]
  · rw [if_neg h1]
    by_cases h2 : c.toNat < 0x800
    · rw [if_pos h2]
      simp only [List.cons_append, List.nil_append, utf8DecodeOne]
      rw [if_neg (by omega), if_neg (by omega), if_pos (by omega)]
      simp only [Option.some.injEq, Prod.mk.injEq, and_true]
      omega
    · rw [if_neg h2]
      by_cases h3 : c.toNat < 0x10000
      · rw [if_pos h3]
        simp only [List.cons_append, List.nil_append, utf8DecodeOne]
        rw [if_neg (by omega), if_neg (by omega), if_neg (by omega),
          if_pos (by omega)]
        simp only [Option.some.injEq, Prod.mk.injEq, and_true]
        omega
      · rw [if_neg h3]
        simp only [List.cons_append, List.nil_append, utf8DecodeOne]
        rw [if_neg (by omega), if_neg (by omega), if_neg (by omega),
          if_neg (by omega)]
        simp only [Option.some.injEq, Prod.mk.injEq, and_true]
        omega

theorem utf8DecodeFuel_encodeChars (cs : List Char) :
    ∀ fuel : Nat, cs.length ≤ fuel →
      utf8DecodeFuel fuel (utf8EncodeChars cs) = some (cs.map Char.toNat) := by
  induction cs with
  | nil =>
    intro fuel _
    cases fuel <;> rfl
  | cons c cs ih =>
    intro fuel hf
    obtain ⟨f, rfl⟩ : ∃ f, fuel = f + 1 := by
      cases fuel
      · exact absurd hf (by simp)
      · exact ⟨_, rfl⟩
    obtain ⟨b, bs, hb⟩ : ∃ b bs, utf8EncodeChar c = b :: bs := by
      cases h : utf8EncodeChar c with
      | nil => exact absurd h (utf8EncodeChar_ne_nil c)
      | cons b bs => exact ⟨b, bs, rfl⟩
    have harg : utf8EncodeChars (c :: cs)
        = b :: (bs ++ utf8EncodeChars cs) := by
      show utf8EncodeChar c ++ utf8EncodeChars cs = _
      rw [hb]
      rfl
    rw [harg]
    simp only [utf8DecodeFuel]
    have hone : utf8DecodeOne (b :: (bs ++ utf8EncodeChars cs))
        = some (c.toNat, utf8EncodeChars cs) := by
      have := utf8DecodeOne_encodeChar c (utf8EncodeChars cs)
      rw [hb] at this
      simpa using this
    rw [hone]
    simp only []
    rw [ih f (by simpa using Nat.lt_succ_iff.mp (Nat.lt_of_lt_of_le (Nat.lt_succ_self _) (by simpa using hf)))]
    rfl

theorem length_le_utf8EncodeChars (cs : List Char) :
    cs.length ≤ (utf8EncodeChars cs).length := by
  induction cs with
  | nil => simp [utf8EncodeChars]
  | cons c cs ih =>
    have h : 0 < (utf8EncodeChar c).length :=
      List.length_pos.mpr (utf8EncodeChar_ne_nil c)
    simp only [utf8EncodeChars, List.length_append, List.length_cons]
    omega

/-- The UTF-8 encoding produced by `textEncoderEncode` is lossless: decoding
it returns exactly the string's code points. -/
theorem utf8Decode_textEncoderEncode (s : String) :
    utf8Decode (textEncoderEncode s) = some (s.data.map Char.toNat) := by
  exact utf8DecodeFuel_encodeChars s.data _ (length_le_utf8EncodeChars s.data)

/-- Errors a host primitive can raise: the unsupported-signal failure the
platform compatibility matrix produces, or any other host failure. -/
inductive HostErr where
  | notSupported
  | other (code : Nat)
deriving DecidableEq, Repr

/-- Observable host state: the host's raw argument vector, the chunks written
so far to the standard output and standard error streams (as byte lists), and
the host-level signal registry (pairs of signal name and callback identity,
in registration order). -/
structure World where
  argv : List String
  stdoutChunks : List (List Nat)
  stderrChunks : List (List Nat)
  registry : List (String × Nat)
deriving DecidableEq, Repr

/-- An empty host state, used for concrete evaluations. -/
def w0 : World := ⟨[], [], [], []⟩

/-- Host primitive (external collaborator): `Deno.stdout.writeSync(bytes)`
appends one byte chunk to the standard output stream. -/
def denoStdoutWriteSync (w : World) (bytes : List Nat) : World :=
  { w with stdoutChunks := w.stdoutChunks ++ [bytes] }

/-- Host primitive (external collaborator): `Deno.stderr.writeSync(bytes)`
appends one byte chunk to the standard error stream. -/
def denoStderrWriteSync (w : World) (bytes : List Nat) : World :=
  { w with stderrChunks := w.stderrChunks ++ [bytes] }

/-- Host primitive (external collaborator): Node's `process.stdout.write(s)`
appends one chunk, the UTF-8 bytes of `s` (Node streams default to utf8
encoding for string chunks), to the standard output stream. -/
def nodeStdoutWrite (w : World) (s : String) : World :=
  { w with stdoutChunks := w.stdoutChunks ++ [textEncoderEncode s] }

/-- Host primitive (external collaborator): Node's `process.stderr.write(s)`
appends one chunk, the UTF-8 bytes of `s`, to the standard error stream. -/
def nodeStderrWrite (w : World) (s : String) : World :=
  { w with stderrChunks := w.stderrChunks ++ [textEncoderEncode s] }

/-- Host primitive (external collaborator): `Deno.addSignalListener(name, cb)`
appends a listener to the host signal registry when the current OS supports
the signal (the OS support matrix is the parameter `supported`), and raises
without attaching anything when it does not. -/
def denoAddSignalListener (supported : String → Bool) (w : World)
    (name : String) (cb : Nat) : Except HostErr World :=
  if supported name then
    Except.ok { w with registry := w.registry ++ [(name, cb)] }
  else
    Except.error HostErr.notSupported

/-- Host primitive (external collaborator): Node's `process.on(name, cb)`
appends a listener to the emitter's registry when the current OS supports the
signal, and raises without attaching anything when it does not. -/
def nodeProcessOn (supported : String → Bool) (w : World)
    (name : String) (cb : Nat) : Except HostErr World :=
  if supported name then
    Except.ok { w with registry := w.registry ++ [(name, cb)] }
  else
    Except.error HostErr.notSupported

/-- The `try { ... } catch (_err) { /* silently ignore */ }` wrapper around
the native registration call in the full build's `signal` methods
(`src/mod.ts` DenoRuntime.signal, `src/unnamed/part_002` NodeRuntime.signal):
a successful native call's effect is kept, and every native failure is
discarded, leaving the world unchanged. -/
def signalGuard (native : Except HostErr World) (w : World) :
    Except HostErr World :=
  match native with
  | Except.ok w' => Except.ok w'
  | Except.error _ => Except.ok w

/-- Full-build `DenoRuntime.signal` (src/mod.ts lines 98-108): the guarded
native registration, as an exception-transparent computation. -/
def DenoRuntime.signalE (supported : String → Bool) (w : World)
    (sig : FullSignal) (cb : Nat) : Except HostErr World :=
  signalGuard (denoAddSignalListener supported w sig.name cb) w

/-- Full-build `NodeRuntime.signal` (src/unnamed/part_002 lines 18-29): the
guarded native registration, as an exception-transparent computation. -/
def NodeRuntime.signalE (supported : String → Bool) (w : World)
    (sig : FullSignal) (cb : Nat) : Except HostErr World :=
  signalGuard (nodeProcessOn supported w sig.name cb) w

/-- The state effect of the void-returning full-build `DenoRuntime.signal`
call (the `.error` branch is unreachable, since the guard catches every
native failure). -/
def DenoRuntime.signalRun (supported : String → Bool) (w : World)
    (sig : FullSignal) (cb : Nat) : World :=
  match DenoRuntime.signalE supported w sig cb with
  | Except.ok w' => w'
  | Except.error _ => w

/-- The state effect of the void-returning full-build `NodeRuntime.signal`
call. -/
def NodeRuntime.signalRun (supported : String → Bool) (w : World)
    (sig : FullSignal) (cb : Nat) : World :=
  match NodeRuntime.signalE supported w sig cb with
  | Except.ok w' => w'
  | Except.error _ => w

/-- Restricted-build `DenoRuntime.signal` (src/unnamed/part_001 lines 25-27):
`Deno.addSignalListener(signal, cb)` with no guard, so a native failure
propagates. -/
def RestrictedDenoRuntime.signal (supported : String → Bool) (w : World)
    (sig : RestrictedSignal) (cb : Nat) : Except HostErr World :=
  denoAddSignalListener supported w sig.name cb

/-- Restricted-build `NodeRuntime.signal` (src/unnamed/part_000 lines 9-11):
`process.on(signal, cb)` with no guard, so a native failure propagates. -/
def RestrictedNodeRuntime.signal (supported : String → Bool) (w : World)
    (sig : RestrictedSignal) (cb : Nat) : Except HostErr World :=
  nodeProcessOn supported w sig.name cb

/-- `DenoRuntime.stdout` (src/mod.ts lines 112-114 of the Deno
implementation): `Deno.stdout.writeSync(new TextEncoder().encode(s))`. -/
def DenoRuntime.stdout (w : World) (s : String) : World :=
  denoStdoutWriteSync w (textEncoderEncode s)

/-- `DenoRuntime.stderr`: `Deno.stderr.writeSync(new TextEncoder().encode(s))`. -/
def DenoRuntime.stderr (w : World) (s : String) : World :=
  denoStderrWriteSync w (textEncoderEncode s)

/-- `NodeRuntime.stdout` (src/unnamed/part_002 lines 36-38):
`process.stdout.write(s)`. -/
def NodeRuntime.stdout (w : World) (s : String) : World :=
  nodeStdoutWrite w s

/-- `NodeRuntime.stderr` (src/unnamed/part_002 lines 33-35):
`process.stderr.write(s)`. -/
def NodeRuntime.stderr (w : World) (s : String) : World :=
  nodeStderrWrite w s

/-- `DenoRuntime.args`: `return Deno.args` — the host already supplies the
argument list with executable and script path filtered out; the component
returns it as is. -/
def DenoRuntime.args (denoArgs : List String) : List String :=
  denoArgs

/-- `NodeRuntime.args`: `return process.argv.slice(2)` — the host supplies the
raw vector whose first two entries are the executable and the script/module
path; the component drops exactly those two (JS `slice(2)` on a shorter array
yields `[]`, as `List.drop` does). -/
def NodeRuntime.args (processArgv : List String) : List String :=
  processArgv.drop 2

/-- The two environment families a selected capability handle can be backed
by. -/
inductive Family where
  | deno
  | node
deriving DecidableEq, Repr

/-- `getRuntime` (src/mod.ts lines 73-81 and, identically,
src/unnamed/part_001 lines 9-17): check `globalThis.Deno` (present iff the
Deno global is defined; it is an object, hence truthy whenever present),
construct the matching backing implementation, and return it.  The
constructors have empty bodies, so the host state passes through
unchanged. -/
def getRuntime (denoPresent : Bool) (w : World) : Family × World :=
  if denoPresent then (Family.deno, w) else (Family.node, w)

/-- An OS support matrix lacking the info signal (Linux and Windows have no
SIGINFO; src/mod.ts header: SIGINFO is BSD/macOS only). -/
def noInfoHost : String → Bool :=
  fun n => !(n == "SIGINFO")

/-- The Windows OS support matrix from the src/mod.ts header comment: SIGINT
and SIGTERM everywhere; SIGHUP, SIGUSR1, SIGUSR2 unsupported on Windows;
SIGINFO BSD/macOS only. -/
def windowsHost : String → Bool :=
  fun n => n == "SIGINT" || n == "SIGTERM"

/-- Exception-transparent view of `DenoRuntime.args` (`return Deno.args`):
the code adds nothing around the host property read, so its result — success
or failure — is returned as is. -/
def DenoRuntime.argsE (hostArgs : Except HostErr (List String)) :
    Except HostErr (List String) :=
  hostArgs

/-- Exception-transparent view of `NodeRuntime.args`
(`return process.argv.slice(2)`): a failure reading `process.argv` is not
caught; on success the first two entries are dropped. -/
def NodeRuntime.argsE (hostArgv : Except HostErr (List String)) :
    Except HostErr (List String) :=
  match hostArgv with
  | Except.ok l => Except.ok (l.drop 2)
  | Except.error e => Except.error e

/-- Exception-transparent view of `DenoRuntime.stdout`: the host write (which
returns the number of bytes written) is called once on the encoded bytes,
with no catch around it. -/
def DenoRuntime.stdoutE (hostWriteSync : List Nat → Except HostErr Nat)
    (s : String) : Except HostErr Nat :=
  hostWriteSync (textEncoderEncode s)

/-- Exception-transparent view of `DenoRuntime.stderr`. -/
def DenoRuntime.stderrE (hostWriteSync : List Nat → Except HostErr Nat)
    (s : String) : Except HostErr Nat :=
  hostWriteSync (textEncoderEncode s)

/-- Exception-transparent view of `NodeRuntime.stdout`
(`process.stdout.write(s)`, which returns a boolean): one uncaught host
call. -/
def NodeRuntime.stdoutE (hostWrite : String → Except HostErr Bool)
    (s : String) : Except HostErr Bool :=
  hostWrite s

/-- Exception-transparent view of `NodeRuntime.stderr`. -/
def NodeRuntime.stderrE (hostWrite : String → Except HostErr Bool)
    (s : String) : Except HostErr Bool :=
  hostWrite s

/-- Exception-transparent view of `DenoRuntime.exit` (`Deno.exit(code)`): one
uncaught host call. -/
def DenoRuntime.exitE (hostExit : Int → Except HostErr Unit) (code : Int) :
    Except HostErr Unit :=
  hostExit code

/-- Exception-transparent view of `NodeRuntime.exit` (`process.exit(code)`). -/
def NodeRuntime.exitE (hostExit : Int → Except HostErr Unit) (code : Int) :
    Except HostErr Unit :=
  hostExit code

/-- Claim C1, counterexample: in the restricted build the registration call is
unguarded, so on a host without the info signal (Linux/Windows) `signal` with
the vocabulary name SIGINFO propagates the host's unsupported-signal error to
the caller instead of returning normally — for both the Deno-family and the
Node-family restricted implementations. -/
theorem restricted_signal_raises_on_unsupported_host :
    RestrictedDenoRuntime.signal noInfoHost w0 RestrictedSignal.SIGINFO 0
      = Except.error HostErr.notSupported ∧
    RestrictedNodeRuntime.signal noInfoHost w0 RestrictedSignal.SIGINFO 0
      = Except.error HostErr.notSupported := by
  constructor <;> rfl

/-- Claim C1, amended: in the full build, `signal(name, cb)` returns normally
for every vocabulary name and every OS support matrix, even when the native
registration primitive raises; in the restricted build the registration call
is unguarded, and the native unsupported-signal failure (for example SIGINFO
on a host without it) propagates to the caller. -/
theorem full_signal_returns_normally_restricted_propagates
    (supported : String → Bool) (w : World) (sig : FullSignal) (cb : Nat) :
    (∃ w1, DenoRuntime.signalE supported w sig cb = Except.ok w1) ∧
    (∃ w2, NodeRuntime.signalE supported w sig cb = Except.ok w2) ∧
    RestrictedDenoRuntime.signal noInfoHost w RestrictedSignal.SIGINFO cb
      = Except.error HostErr.notSupported ∧
    RestrictedNodeRuntime.signal noInfoHost w RestrictedSignal.SIGINFO cb
      = Except.error HostErr.notSupported := by
  refine ⟨?_, ?_, rfl, rfl⟩
  · cases h : denoAddSignalListener supported w sig.name cb with
    | ok w1 => exact ⟨w1, by simp [DenoRuntime.signalE, signalGuard, h]⟩
    | error e => exact ⟨w, by simp [DenoRuntime.signalE, signalGuard, h]⟩
  · cases h : nodeProcessOn supported w sig.name cb with
    | ok w2 => exact ⟨w2, by simp [NodeRuntime.signalE, signalGuard, h]⟩
    | error e => exact ⟨w, by simp [NodeRuntime.signalE, signalGuard, h]⟩

/-- Claim C2: `getRuntime` returns the Deno-family implementation exactly when
the global marker `globalThis.Deno` is present and the Node-family fallback
exactly when it is absent; no part of the host state other than the marker
influences the selection. -/
theorem getRuntime_selects_by_deno_marker (d : Bool) (w w' : World) :
    ((getRuntime d w).1 = Family.deno ↔ d = true) ∧
    ((getRuntime d w).1 = Family.node ↔ d = false) ∧
    (getRuntime d w).1 = (getRuntime d w').1 := by
  cases d <;> simp [getRuntime]

/-- Claim C3: for every string `s` — empty or containing multi-byte
characters — `stdout(s)` appends exactly one chunk to the standard output
stream and leaves the standard error stream untouched (and symmetrically for
`stderr(s)`), in both backing implementations; the chunk is the UTF-8
encoding of `s`, which decodes back to exactly the characters of `s` (no
truncation, no escaping, no terminators added or removed). -/
theorem stdout_stderr_write_exactly_once_exact_content (w : World)
    (s : String) :
    (DenoRuntime.stdout w s).stdoutChunks
        = w.stdoutChunks ++ [textEncoderEncode s] ∧
    (DenoRuntime.stdout w s).stderrChunks = w.stderrChunks ∧
    (NodeRuntime.stdout w s).stdoutChunks
        = w.stdoutChunks ++ [textEncoderEncode s] ∧
    (NodeRuntime.stdout w s).stderrChunks = w.stderrChunks ∧
    (DenoRuntime.stderr w s).stderrChunks
        = w.stderrChunks ++ [textEncoderEncode s] ∧
    (DenoRuntime.stderr w s).stdoutChunks = w.stdoutChunks ∧
    (NodeRuntime.stderr w s).stderrChunks
        = w.stderrChunks ++ [textEncoderEncode s] ∧
    (NodeRuntime.stderr w s).stdoutChunks = w.stdoutChunks ∧
    utf8Decode (textEncoderEncode s) = some (s.data.map Char.toNat) :=
  ⟨rfl, rfl, rfl, rfl, rfl, rfl, rfl, rfl, utf8Decode_textEncoderEncode s⟩

/-- Claim C4: `args()` returns exactly the user-supplied arguments in their
original order, excluding the executable and script/module path entries: the
Node-family implementation drops exactly the first two entries of the raw
vector (yielding `[]` when nothing follows them), and the Deno-family
implementation returns the host's already-filtered list unchanged; in the
embedding the result is a total `List String`, never an absent value. -/
theorem args_excludes_exec_and_script_never_absent
    (execPath script : String) (userArgs : List String) :
    NodeRuntime.args (execPath :: script :: userArgs) = userArgs ∧
    NodeRuntime.args [execPath, script] = [] ∧
    DenoRuntime.args userArgs = userArgs :=
  ⟨rfl, rfl, rfl⟩

/-- Claim C5, counterexample: on a host OS that does not support the chosen
vocabulary name (SIGUSR1 on Windows for the Node family, SIGINFO on a
non-BSD host for the Deno family), registering two callbacks for that name
leaves the host registry empty — neither callback is retained, contradicting
the claim's universal quantification over every vocabulary name. -/
theorem double_registration_unsupported_retains_neither :
    (NodeRuntime.signalRun windowsHost
        (NodeRuntime.signalRun windowsHost w0 FullSignal.SIGUSR1 0)
        FullSignal.SIGUSR1 1).registry = [] ∧
    (DenoRuntime.signalRun noInfoHost
        (DenoRuntime.signalRun noInfoHost w0 FullSignal.SIGINFO 0)
        FullSignal.SIGINFO 1).registry = [] := by
  constructor <;> rfl

/-- Claim C5, amended: for every vocabulary name and every pair of callbacks,
registering `cb1` and then `cb2` appends, when the host OS supports the
name, both callbacks to the host registry as independent registrations in
order — the second never replaces or removes the first; when the host does
not support the name, the guarded registrations are silently swallowed and
neither callback is attached.  This holds for both full-build
implementations. -/
theorem double_registration_appends_both_iff_supported
    (supported : String → Bool) (w : World) (sig : FullSignal)
    (cb1 cb2 : Nat) :
    (DenoRuntime.signalRun supported
        (DenoRuntime.signalRun supported w sig cb1) sig cb2).registry
      = w.registry
        ++ (if supported sig.name then [(sig.name, cb1), (sig.name, cb2)]
            else []) ∧
    (NodeRuntime.signalRun supported
        (NodeRuntime.signalRun supported w sig cb1) sig cb2).registry
      = w.registry
        ++ (if supported sig.name then [(sig.name, cb1), (sig.name, cb2)]
            else []) := by
  rcases Bool.eq_false_or_eq_true (supported sig.name) with h | h <;>
    simp [DenoRuntime.signalRun, NodeRuntime.signalRun, DenoRuntime.signalE,
      NodeRuntime.signalE, signalGuard, denoAddSignalListener, nodeProcessOn,
      h]

/-- Claim C6: the signal-registration guard is the only error suppression in
the component: for both backing implementations, a failure of the host
primitive underlying `args`, `stdout`, `stderr`, or `exit` is returned to
the caller exactly as the host raised it (no catching, retrying, or
rewrapping), while the full build's signal guard turns every native
registration failure into a normal return. -/
theorem only_signal_guard_suppresses_host_errors
    (e : HostErr) (s : String) (code : Int) (w : World) (sig : FullSignal)
    (cb : Nat) (native : String → Nat → Except HostErr World) :
    DenoRuntime.argsE (Except.error e) = Except.error e ∧
    NodeRuntime.argsE (Except.error e) = Except.error e ∧
    DenoRuntime.stdoutE (fun _ => Except.error e) s = Except.error e ∧
    DenoRuntime.stderrE (fun _ => Except.error e) s = Except.error e ∧
    NodeRuntime.stdoutE (fun _ => Except.error e) s = Except.error e ∧
    NodeRuntime.stderrE (fun _ => Except.error e) s = Except.error e ∧
    DenoRuntime.exitE (fun _ => Except.error e) code = Except.error e ∧
    NodeRuntime.exitE (fun _ => Except.error e) code = Except.error e ∧
    (∃ w', signalGuard (native sig.name cb) w = Except.ok w') := by
  refine ⟨rfl, rfl, rfl, rfl, rfl, rfl, rfl, rfl, ?_⟩
  cases h : native sig.name cb with
  | ok w2 => exact ⟨w2, by simp [signalGuard, h]⟩
  | error e2 => exact ⟨w, by simp [signalGuard, h]⟩

/-- Claim C7: the repository exposes exactly two fixed signal vocabularies:
the full build's `signal` accepts exactly the six names SIGINT, SIGTERM,
SIGHUP, SIGUSR1, SIGUSR2, SIGINFO, and the restricted build's `signal`
accepts exactly the two names SIGTERM, SIGINFO; no name outside the
respective set is expressible. -/
theorem signal_vocabularies_exact :
    (∀ s : String, (∃ g : FullSignal, g.name = s) ↔
      (s = "SIGINT" ∨ s = "SIGTERM" ∨ s = "SIGHUP" ∨ s = "SIGUSR1" ∨
        s = "SIGUSR2" ∨ s = "SIGINFO")) ∧
    (∀ s : String, (∃ g : RestrictedSignal, g.name = s) ↔
      (s = "SIGTERM" ∨ s = "SIGINFO")) := by
  constructor <;> intro s <;> constructor
  · rintro ⟨g, rfl⟩
    cases g <;> simp [FullSignal.name]
  · rintro (rfl | rfl | rfl | rfl | rfl | rfl)
    exacts [⟨FullSignal.SIGINT, rfl⟩, ⟨FullSignal.SIGTERM, rfl⟩,
      ⟨FullSignal.SIGHUP, rfl⟩, ⟨FullSignal.SIGUSR1, rfl⟩,
      ⟨FullSignal.SIGUSR2, rfl⟩, ⟨FullSignal.SIGINFO, rfl⟩]
  · rintro ⟨g, rfl⟩
    cases g <;> simp [RestrictedSignal.name]
  · rintro (rfl | rfl)
    exacts [⟨RestrictedSignal.SIGTERM, rfl⟩, ⟨RestrictedSignal.SIGINFO, rfl⟩]

/-- Claim C8: on corresponding host inputs — a raw Node argument vector whose
first two entries are the executable and script path, and the Deno host's
already-filtered list of the same user arguments — the two implementations'
`args` operations return the same user-argument sequence. -/
theorem node_args_equals_deno_args_on_corresponding_input
    (execPath script : String) (userArgs : List String) :
    NodeRuntime.args (execPath :: script :: userArgs)
      = DenoRuntime.args userArgs :=
  rfl

/-- Claim C9: `getRuntime` is deterministic and, up to returning the
constructed handle, has no observable side effect: the host state (signal
registry, both stream transcripts, argument vector) passes through
unchanged, and the selected family depends only on the marker, not on any
other part of the host state (in particular it does not read the argument
vector). -/
theorem getRuntime_deterministic_no_side_effects (d : Bool) (w w' : World) :
    (getRuntime d w).2 = w ∧
    (getRuntime d w).2.registry = w.registry ∧
    (getRuntime d w).2.stdoutChunks = w.stdoutChunks ∧
    (getRuntime d w).2.stderrChunks = w.stderrChunks ∧
    (getRuntime d w).2.argv = w.argv ∧
    (getRuntime d w).1 = (getRuntime d w').1 := by
  cases d <;> simp [getRuntime]

/-- Claim C10: the full build's signal guard catches and discards every error
raised by the native registration call — whatever the native primitive does
for the given vocabulary name and callback, the guarded call returns
normally. -/
theorem signal_guard_swallows_every_error
    (native : String → Nat → Except HostErr World) (w : World)
    (sig : FullSignal) (cb : Nat) :
    ∃ w', signalGuard (native sig.name cb) w = Except.ok w' := by
  cases h : native sig.name cb with
  | ok w2 => exact ⟨w2, by simp [signalGuard, h]⟩
  | error e2 => exact ⟨w, by simp [signalGuard, h]⟩
